import Mathlib

/-
Verification of the data normalization, currency-conversion and aggregation
pipeline of src/streamlit_app.py (Comércio Externo de Angola — 2022).

The pandas pipeline is shallowly embedded as pure functions over lists of
records.  Conventions used throughout, matching pandas semantics:
  - a missing / NaN value is `none` (an `Option` field);
  - pandas `sum` skips NaN, so summation uses `Option.getD 0`;
  - pandas `groupby` drops rows whose grouping key is NaN;
  - comparisons against NaN are `false`, so a boolean row filter drops
    rows whose compared column is `none`;
  - a Python dict is an association list with unique keys, built by
    upsert (later assignments overwrite earlier ones).
-/

namespace TradeApp

/-- A raw input row of the main CSV, after column renaming: `none` fields model
cells whose numeric parse failed (pandas NA/NaN) or missing product text. -/
structure RawRow where
  year : Option Int
  month : Option Int
  flow : String
  partner_country : String
  product_desc : Option String
  value_aoa : Option ℚ
deriving DecidableEq

/-- A row of the main dataframe after the column coercions of carregar_dados:
value_aoa has been filled with 0.0 and product_desc with the sentinel. -/
structure CoRow where
  year : Option Int
  month : Option Int
  flow : String
  partner_country : String
  product_desc : String
  value_aoa : ℚ
deriving DecidableEq

/-- The per-column coercions of carregar_dados: `to_numeric(...).fillna(0.0)`
for value_aoa and `fillna("Desconhecido")` for product_desc. -/
def coerceRow (r : RawRow) : CoRow :=
  ⟨r.year, r.month, r.flow, r.partner_country,
    r.product_desc.getD "Desconhecido", r.value_aoa.getD 0⟩

/-- carregar_dados: coerce columns, stop with an error when no row has
year 2022, keep only year-2022 rows, and drop rows whose month is missing or
outside 1..12 (NA comparisons are false in pandas, so NA months are dropped). -/
def carregar_dados (rows : List RawRow) : Except String (List CoRow) :=
  let df := rows.map coerceRow
  if ¬ df.any (fun r => r.year = some 2022) then
    Except.error "O dataset não contém linhas do ano 2022."
  else
    Except.ok ((df.filter (fun r => r.year = some 2022)).filter
      (fun r => match r.month with
        | some m => decide (1 ≤ m ∧ m ≤ 12)
        | none => false))

/-- A record after carregar_dados and normalizar_paises, before currency
conversion: iso3 is `none` when country resolution failed. -/
structure NRec where
  month : Int
  flow : String
  partner : String
  iso3 : Option String
  product : String
  value_aoa : ℚ
deriving DecidableEq

/-- A record after currency conversion: `value` is `none` when the converted
value is NaN; applied_rate is `none` in AOA mode. -/
structure TRec where
  month : Int
  flow : String
  partner : String
  iso3 : Option String
  product : String
  value : Option ℚ
  applied_rate : Option ℚ
deriving DecidableEq

/-- The SADC membership set of the source. -/
def SADC : List String :=
  ["AGO","ZAF","BWA","COD","COG","LBR","LSO","MDG","MWI","MUS","MOZ","NAM",
   "SYC","SWZ","TZA","ZMB","ZWE","COM","STP"]

/-- The UE27 membership set of the source. -/
def UE27 : List String :=
  ["AUT","BEL","BGR","HRV","CYP","CZE","DNK","EST","FIN","FRA","DEU","GRC",
   "HUN","IRL","ITA","LVA","LTU","LUX","MLT","NLD","POL","PRT","ROU","SVK",
   "SVN","ESP","SWE"]

/-- The ASIA membership set of the source. -/
def ASIA : List String :=
  ["AFG","ARM","AZE","BHR","BGD","BRN","BTN","KHM","CHN","CYP","GEO","HKG",
   "IND","IDN","IRN","IRQ","ISR","JPN","JOR","KAZ","KWT","KGZ","LAO","LBN",
   "MAC","MYS","MDV","MNG","MMR","NPL","PRK","OMN","PAK","PSE","PHL","QAT",
   "SAU","SGP","KOR","LKA","SYR","TWN","TJK","THA","TUR","TKM","ARE","UZB",
   "VNM","YEM"]

/-- Python membership test `x in S` where x may be None (then false). -/
def inSet (x : Option String) (s : List String) : Bool :=
  match x with
  | some c => c ∈ s
  | none => false

/-- The region lambda of precompute_aggs: SADC first, then UE, then Ásia,
defaulting to Outros (also for an absent code). -/
def classifyRegion (x : Option String) : String :=
  if inSet x SADC then "SADC"
  else if inSet x UE27 then "UE"
  else if inSet x ASIA then "Ásia"
  else "Outros"

/-- The same static membership classification with the UE and Ásia checks
swapped, used to test whether the result depends on the check order. -/
def classifyRegionAsiaFirst (x : Option String) : String :=
  if inSet x SADC then "SADC"
  else if inSet x ASIA then "Ásia"
  else if inSet x UE27 then "UE"
  else "Outros"

/-- One row of the uploaded rate CSV: `none` models a cell whose numeric
parse failed (pandas NA). -/
structure RateRow where
  month : Option Int
  rate : Option ℚ
deriving DecidableEq

/-- Python dict assignment d[k] = v on an association list with unique keys. -/
def dictUpsert (d : List (Int × ℚ)) (k : Int) (v : ℚ) : List (Int × ℚ) :=
  if d.any (fun p => p.1 = k) then d.map (fun p => if p.1 = k then (k, v) else p)
  else d ++ [(k, v)]

/-- Python `dict(zip(ks, vs))`: build a dict from pairs, later pairs winning. -/
def dictOfList (l : List (Int × ℚ)) : List (Int × ℚ) :=
  l.foldl (fun d p => dictUpsert d p.1 p.2) []

/-- ler_taxas_csv: `none` input models a file whose read raised (unparseable
or missing month/rate columns), swallowed by the bare except into an empty
dict.  Rows are kept iff month parses into 1..12 and the rate parses; the
rate value itself is NOT sign-checked. -/
def ler_taxas_csv (input : Option (List RateRow)) : List (Int × ℚ) :=
  match input with
  | none => []
  | some rows =>
      dictOfList (rows.filterMap (fun row =>
        match row.month, row.rate with
        | some m, some r => if 1 ≤ m ∧ m ≤ 12 then some (m, r) else none
        | _, _ => none))

/-- taxa_media of obter_taxas: the arithmetic mean of the strictly positive
dict values, 0.0 when there are none. -/
def meanRate (taxas : List (Int × ℚ)) : ℚ :=
  let valid := (taxas.map Prod.snd).filter (fun v => 0 < v)
  if valid.isEmpty then 0 else valid.sum / (valid.length : ℚ)

/-- completo of obter_taxas: every month 1..12 has a strictly positive rate. -/
def completoRates (taxas : List (Int × ℚ)) : Bool :=
  (List.range 12).all (fun i => 0 < ((taxas.lookup ((i : Int) + 1)).getD 0))

/-- obter_taxas: start from the rates read from CSV, overwrite with the
strictly positive manual widget entries, and return the dict together with
the mean rate and the completeness flag. -/
def obter_taxas (lidas : List (Int × ℚ)) (manual : List (Int × ℚ)) :
    List (Int × ℚ) × ℚ × Bool :=
  let taxas := (manual.filter (fun p => 0 < p.2)).foldl
    (fun d p => dictUpsert d p.1 p.2) lidas
  (taxas, meanRate taxas, completoRates taxas)

/-- _rate_for_month of main: the dict entry for the month when present and
strictly positive (Python `r if r and r > 0`), otherwise the mean rate. -/
def rateForMonth (taxas : List (Int × ℚ)) (m : Int) : ℚ :=
  let r := (taxas.lookup m).getD 0
  if 0 < r then r else meanRate taxas

/-- Modelled from the spec wording, for comparison with rateForMonth: the
rate is the tables entry for the month if present and strictly positive,
otherwise the arithmetic mean of all strictly positive entries. -/
def rateForMonthSpec (taxas : List (Int × ℚ)) (m : Int) : ℚ :=
  match taxas.lookup m with
  | some r => if 0 < r then r else meanRate taxas
  | none => meanRate taxas

/-- AOA branch of the conversion in main: value = value_aoa unchanged. -/
def convertAOARec (r : NRec) : TRec :=
  ⟨r.month, r.flow, r.partner, r.iso3, r.product, some r.value_aoa, none⟩

/-- USD branch of the conversion in main: applied_rate is _rate_for_month and
value = value_aoa / applied_rate.replace(0, nan); dividing by NaN gives NaN. -/
def convertUSDRec (taxas : List (Int × ℚ)) (r : NRec) : TRec :=
  let rate := rateForMonth taxas r.month
  ⟨r.month, r.flow, r.partner, r.iso3, r.product,
    if rate = 0 then none else some (r.value_aoa / rate), some rate⟩

/-- The currency-conversion step of main over the whole record set. -/
def convertRecords (moeda : String) (taxas : List (Int × ℚ)) (rs : List NRec) :
    List TRec :=
  if moeda = "AOA" then rs.map convertAOARec else rs.map (convertUSDRec taxas)

/-- The value-range filter of main:
`df_f[(df_f.value >= lo) & (df_f.value <= hi)]`; NaN comparisons are false. -/
def applyValueFilter (lo hi : ℚ) (rs : List TRec) : List TRec :=
  rs.filter (fun r => match r.value with
    | some v => decide (lo ≤ v ∧ v ≤ hi)
    | none => false)

/-- pandas sum over the value column: NaN entries are skipped. -/
def sumValues (rs : List TRec) : ℚ := (rs.map (fun r => r.value.getD 0)).sum

/-- pandas `groupby(key)[value].sum()`: one row per distinct key, carrying
the (NaN-skipping) sum of the values of the records with that key. -/
def groupSum {κ : Type} [DecidableEq κ] (key : TRec → κ) (rs : List TRec) :
    List (κ × ℚ) :=
  ((rs.map key).dedup).map
    (fun k => (k, sumValues (rs.filter (fun r => key r = k))))

/-- The total of the value column of an aggregate view. -/
def totalView {κ : Type} (view : List (κ × ℚ)) : ℚ := (view.map Prod.snd).sum

/-- precompute_aggs monthly_flow: groupby (month, flow). -/
def monthly_flow (rs : List TRec) : List ((Int × String) × ℚ) :=
  groupSum (fun r => (r.month, r.flow)) rs

/-- precompute_aggs by_partner: groupby (partner_country_clean, iso3, flow).
pandas drops rows whose iso3 grouping key is NaN/None. -/
def by_partner (rs : List TRec) : List ((String × Option String × String) × ℚ) :=
  groupSum (fun r => (r.partner, r.iso3, r.flow)) (rs.filter (fun r => r.iso3.isSome))

/-- precompute_aggs by_product: groupby (product_desc, flow). -/
def by_product (rs : List TRec) : List ((String × String) × ℚ) :=
  groupSum (fun r => (r.product, r.flow)) rs

/-- precompute_aggs by_region: groupby (regiao, flow). -/
def by_region (rs : List TRec) : List ((String × String) × ℚ) :=
  groupSum (fun r => (classifyRegion r.iso3, r.flow)) rs

/-- precompute_aggs monthly_region: groupby (month, regiao). -/
def monthly_region (rs : List TRec) : List ((Int × String) × ℚ) :=
  groupSum (fun r => (r.month, classifyRegion r.iso3)) rs

/-- exp_total of gerar_kpis. -/
def expTotal (rs : List TRec) : ℚ :=
  sumValues (rs.filter (fun r => r.flow = "Exportações"))

/-- imp_total of gerar_kpis. -/
def impTotal (rs : List TRec) : ℚ :=
  sumValues (rs.filter (fun r => r.flow = "Importações"))

/-- balanca of gerar_kpis. -/
def balanca (rs : List TRec) : ℚ := expTotal rs - impTotal rs

/-- cobertura of gerar_kpis: exp/imp when imp_total is truthy (nonzero),
NaN (`none`) otherwise. -/
def cobertura (rs : List TRec) : Option ℚ :=
  if impTotal rs ≠ 0 then some (expTotal rs / impTotal rs) else none

/-- mes_ref of gerar_kpis: max of the selected months, else the max month of
the filtered set, else 1. -/
def mesRef (rs : List TRec) (msel : List Int) : Int :=
  match msel.max? with
  | some m => m
  | none =>
    match (rs.map (fun r => r.month)).max? with
    | some m => m
    | none => 1

/-- var_mm of gerar_kpis: `(cur/prev - 1) * 100` gated by
`prev and prev > 0`; cur is NaN on the empty set, prev is NaN when
mes_ref is 1; a NaN result is `none`. -/
def varMM (rs : List TRec) (msel : List Int) : Option ℚ :=
  let mr := mesRef rs msel
  let cur : Option ℚ :=
    if rs = [] then none else some (sumValues (rs.filter (fun r => r.month = mr)))
  let prev : Option ℚ :=
    if 1 < mr then some (sumValues (rs.filter (fun r => r.month = mr - 1))) else none
  match prev with
  | some p =>
      if 0 < p then
        match cur with
        | some c => some ((c / p - 1) * 100)
        | none => none
      else none
  | none => none

/-- Insert into a list that is sorted by descending f-value. -/
def insertDescBy {α : Type} (f : α → ℚ) (x : α) : List α → List α
  | [] => [x]
  | y :: ys => if f y < f x then x :: y :: ys else y :: insertDescBy f x ys

/-- pandas sort_values(ascending=False): sort by descending f-value. -/
def sortDescBy {α : Type} (f : α → ℚ) (l : List α) : List α :=
  l.foldr (insertDescBy f) []

/-- Running cumulative sums starting from accumulator a. -/
def cumsumFrom (a : ℚ) : List ℚ → List ℚ
  | [] => []
  | x :: xs => (a + x) :: cumsumFrom (a + x) xs

/-- pandas cumsum over a value column. -/
def cumsum (l : List ℚ) : List ℚ := cumsumFrom 0 l

/-- The per-partner summed values of gerar_insights, sorted descending:
`df.groupby("partner_country_clean")["value"].sum().sort_values(ascending=False)`. -/
def partnerSumsSorted (rs : List TRec) : List ℚ :=
  sortDescBy id ((groupSum (fun r => r.partner) rs).map Prod.snd)

/-- share of gerar_insights: the cumulative partner sums as a percentage of
the total value, `.cumsum() / total * 100`. -/
def partnerShares (rs : List TRec) : List ℚ :=
  (cumsum (partnerSumsSorted rs)).map (fun c => c / sumValues rs * 100)

/-- n80 of gerar_insights: `(share <= 80).sum()`, the number of partners
whose cumulative share is at most 80 percent. -/
def n80 (rs : List TRec) : Nat :=
  (partnerShares rs).countP (fun s => decide (s ≤ 80))

/-- Modelled from the spec: the minimum number of top partners, in descending
order of summed value, whose cumulative share of the total first reaches or
exceeds 80 percent (one more than the longest strict prefix staying under 80). -/
def specMinPartners (rs : List TRec) : Nat :=
  ((partnerShares rs).takeWhile (fun s => decide (s < 80))).length + 1

/-- The templated observations of gerar_insights, with the message text
abstracted into one constructor per template, carrying the interpolated data. -/
inductive Insight where
  | sentinel
  | topPartner (nome : String) (pct : ℚ)
  | topProduct (nome : String) (pct : ℚ)
  | bestWorst (best worst : Int)
  | surplus
  | deficit
  | concentration (n : Nat)
deriving DecidableEq

/-- Leading-partner insight: head of the partner sums sorted descending. -/
def insightTopPartner (rs : List TRec) (total : ℚ) : List Insight :=
  match sortDescBy Prod.snd (groupSum (fun r => r.partner) rs) with
  | [] => []
  | p :: _ => [Insight.topPartner p.1 (100 * p.2 / total)]

/-- Leading-product insight: head of the product sums sorted descending. -/
def insightTopProduct (rs : List TRec) (total : ℚ) : List Insight :=
  match sortDescBy Prod.snd (groupSum (fun r => r.product) rs) with
  | [] => []
  | p :: _ => [Insight.topProduct p.1 (100 * p.2 / total)]

/-- by_m of gerar_insights: monthly totals reindexed over 1..12, NaN→0. -/
def monthTotals (rs : List TRec) : List (Int × ℚ) :=
  (List.range 12).map
    (fun i => (((i : Int) + 1), sumValues (rs.filter (fun r => r.month = (i : Int) + 1))))

/-- by_m.max(): the maximum of the 12 monthly totals. -/
def maxMonthTotal (rs : List TRec) : ℚ :=
  match (monthTotals rs).map Prod.snd with
  | [] => 0
  | x :: xs => xs.foldl max x

/-- pandas idxmax: the key of the first entry attaining the maximum value. -/
def idxmax (l : List (Int × ℚ)) : Int :=
  match l with
  | [] => 0
  | p :: ps => (ps.foldl (fun best q => if best.2 < q.2 then q else best) p).1

/-- pandas idxmin: the key of the first entry attaining the minimum value. -/
def idxmin (l : List (Int × ℚ)) : Int :=
  match l with
  | [] => 0
  | p :: ps => (ps.foldl (fun best q => if q.2 < best.2 then q else best) p).1

/-- Best/worst month insight, emitted when the maximum monthly total is
positive. -/
def insightBestWorst (rs : List TRec) : List Insight :=
  if 0 < maxMonthTotal rs then
    [Insight.bestWorst (idxmax (monthTotals rs)) (idxmin (monthTotals rs))]
  else []

/-- Surplus/deficit insight: always emitted, on the sign of exp - imp. -/
def insightBalance (rs : List TRec) : List Insight :=
  if 0 ≤ expTotal rs - impTotal rs then [Insight.surplus] else [Insight.deficit]

/-- Concentration insight: emitted when n80 >= 1, reporting n80. -/
def insightConcentration (rs : List TRec) : List Insight :=
  if 1 ≤ n80 rs then [Insight.concentration (n80 rs)] else []

/-- gerar_insights: the sentinel when the set is empty or its total value is
nonpositive, otherwise the five templated insights in their fixed order. -/
def gerar_insights (rs : List TRec) : List Insight :=
  if rs = [] then [Insight.sentinel]
  else if sumValues rs ≤ 0 then [Insight.sentinel]
  else
    insightTopPartner rs (sumValues rs) ++ insightTopProduct rs (sumValues rs)
      ++ insightBestWorst rs ++ insightBalance rs ++ insightConcentration rs

/-- Splitting a NaN-skipping sum along a boolean predicate. -/
theorem sum_filter_not {α : Type} (v : α → ℚ) (p : α → Bool) :
    ∀ rs : List α,
      ((rs.filter p).map v).sum + ((rs.filter (fun r => !(p r))).map v).sum
        = (rs.map v).sum
  | [] => by simp
  | r :: rs => by
    have ih := sum_filter_not v p rs
    by_cases h : p r = true
    · simp [List.filter_cons, h]
      linarith [ih]
    · have h' : p r = false := by simpa using h
      simp [List.filter_cons, h']
      linarith [ih]

/-- Fiberwise summation: summing the per-key filtered sums over a duplicate-free
key list covering every record gives the total sum. -/
theorem sum_fiber_aux {α κ : Type} [DecidableEq κ] (v : α → ℚ) (key : α → κ) :
    ∀ (ks : List κ) (rs : List α), ks.Nodup → (∀ r ∈ rs, key r ∈ ks) →
      (ks.map (fun k => ((rs.filter (fun r => key r = k)).map v).sum)).sum
        = (rs.map v).sum
  | [], rs, _, hcov => by
    have : rs = [] := by
      cases rs with
      | nil => rfl
      | cons a as => exact absurd (hcov a (by simp)) (List.not_mem_nil _)
    simp [this]
  | k :: ks, rs, hnd, hcov => by
    have hk : k ∉ ks := (List.nodup_cons.mp hnd).1
    have hnd' : ks.Nodup := (List.nodup_cons.mp hnd).2
    have hcov' : ∀ r ∈ rs.filter (fun r => ¬ key r = k), key r ∈ ks := by
      intro r hr
      have h1 := List.mem_of_mem_filter hr
      have h2 := (List.mem_filter.mp hr).2
      simp only [decide_not, Bool.not_eq_true', decide_eq_false_iff_not] at h2
      rcases List.mem_cons.mp (hcov r h1) with h | h
      · exact absurd h h2
      · exact h
    have ih := sum_fiber_aux v key ks (rs.filter (fun r => ¬ key r = k)) hnd' hcov'
    have hsame : ∀ k' ∈ ks,
        (rs.filter (fun r => ¬ key r = k)).filter (fun r => key r = k')
          = rs.filter (fun r => key r = k') := by
      intro k' hk'
      rw [List.filter_filter]
      apply List.filter_congr
      intro r _
      by_cases h : key r = k'
      · have hkk : k' ≠ k := fun he => hk (he ▸ hk')
        simp [h, hkk]
      · simp [h]
    have hmap : (ks.map (fun k' =>
        (((rs.filter (fun r => ¬ key r = k)).filter (fun r => key r = k')).map v).sum))
        = ks.map (fun k' => ((rs.filter (fun r => key r = k')).map v).sum) := by
      apply List.map_congr_left
      intro k' hk'
      rw [hsame k' hk']
    have hnotk : (rs.filter (fun r => ¬ key r = k))
        = rs.filter (fun r => !(decide (key r = k))) := by
      apply List.filter_congr
      intro r _
      simp
    calc ((k :: ks).map (fun k' => ((rs.filter (fun r => key r = k')).map v).sum)).sum
        = ((rs.filter (fun r => key r = k)).map v).sum
            + (ks.map (fun k' => ((rs.filter (fun r => key r = k')).map v).sum)).sum := by
          simp
      _ = ((rs.filter (fun r => key r = k)).map v).sum
            + ((rs.filter (fun r => ¬ key r = k)).map v).sum := by rw [← hmap, ih]
      _ = (rs.map v).sum := by
          rw [hnotk]
          exact sum_filter_not v (fun r => decide (key r = k)) rs

/-- The total of any grouped view equals the total of the grouped records. -/
theorem totalView_groupSum {κ : Type} [DecidableEq κ] (key : TRec → κ)
    (rs : List TRec) : totalView (groupSum key rs) = sumValues rs := by
  unfold totalView groupSum sumValues
  rw [List.map_map]
  have hcomp : (Prod.snd ∘ fun k =>
      (k, ((rs.filter (fun r => key r = k)).map (fun r => r.value.getD 0)).sum))
      = fun k => ((rs.filter (fun r => key r = k)).map (fun r => r.value.getD 0)).sum := by
    funext k; rfl
  rw [hcomp]
  exact sum_fiber_aux _ key _ rs (List.nodup_dedup _)
    (fun r hr => List.mem_dedup.mpr (List.mem_map_of_mem key hr))

/-- A NaN-skipping sum of records with nonnegative values is nonnegative. -/
theorem sumValues_nonneg (rs : List TRec) (h : ∀ r ∈ rs, 0 ≤ r.value.getD 0) :
    0 ≤ sumValues rs := by
  unfold sumValues
  apply List.sum_nonneg
  intro x hx
  rcases List.mem_map.mp hx with ⟨r, hr, rfl⟩
  exact h r hr

/-- Over nonnegative values, a filtered sum is at most the full sum. -/
theorem sumValues_filter_le (p : TRec → Bool) (rs : List TRec)
    (h : ∀ r ∈ rs, 0 ≤ r.value.getD 0) : sumValues (rs.filter p) ≤ sumValues rs := by
  have hsplit := sum_filter_not (fun r : TRec => r.value.getD 0) p rs
  have hnn : 0 ≤ ((rs.filter (fun r => !(p r))).map (fun r : TRec => r.value.getD 0)).sum := by
    apply List.sum_nonneg
    intro x hx
    rcases List.mem_map.mp hx with ⟨r, hr, rfl⟩
    exact h r (List.mem_of_mem_filter hr)
  unfold sumValues
  linarith [hsplit]

/-- Membership through descending insertion. -/
theorem mem_insertDescBy {α : Type} (f : α → ℚ) (x a : α) :
    ∀ l : List α, (a ∈ insertDescBy f x l ↔ a = x ∨ a ∈ l)
  | [] => by simp [insertDescBy]
  | y :: ys => by
    by_cases h : f y < f x
    · simp [insertDescBy, h]
    · simp only [insertDescBy, if_neg h, List.mem_cons, mem_insertDescBy f x a ys]
      tauto

/-- Membership through the descending sort. -/
theorem mem_sortDescBy {α : Type} (f : α → ℚ) (a : α) :
    ∀ l : List α, (a ∈ sortDescBy f l ↔ a ∈ l)
  | [] => by simp [sortDescBy]
  | y :: ys => by
    simp only [sortDescBy, List.foldr_cons, mem_insertDescBy, List.mem_cons]
    have := mem_sortDescBy f a ys
    simp only [sortDescBy] at this
    rw [this]

/-- Cumulative sums of nonnegative summands are sorted and bounded below by
the starting accumulator. -/
theorem cumsumFrom_sorted_le :
    ∀ (l : List ℚ), (∀ x ∈ l, 0 ≤ x) → ∀ a : ℚ,
      (cumsumFrom a l).Sorted (· ≤ ·) ∧ ∀ c ∈ cumsumFrom a l, a ≤ c
  | [], _, a => by simp [cumsumFrom]
  | x :: xs, h, a => by
    have hx : 0 ≤ x := h x (by simp)
    have ih := cumsumFrom_sorted_le xs (fun y hy => h y (by simp [hy])) (a + x)
    constructor
    · rw [cumsumFrom, List.sorted_cons]
      exact ⟨fun b hb => ih.2 b hb, ih.1⟩
    · intro c hc
      rw [cumsumFrom, List.mem_cons] at hc
      rcases hc with rfl | hc
      · linarith
      · linarith [ih.2 c hc]

/-- In a sorted list with no entry equal to the threshold, the number of
entries at most the threshold is the length of the strict prefix below it. -/
theorem countP_le_of_sorted (t : ℚ) :
    ∀ l : List ℚ, l.Sorted (· ≤ ·) → (∀ s ∈ l, s ≠ t) →
      l.countP (fun s => decide (s ≤ t)) = (l.takeWhile (fun s => decide (s < t))).length
  | [], _, _ => by simp
  | x :: xs, hs, hne => by
    have hx := (List.sorted_cons.mp hs).1
    have hxs := (List.sorted_cons.mp hs).2
    by_cases h : x < t
    · have ih := countP_le_of_sorted t xs hxs (fun s hsm => hne s (by simp [hsm]))
      simp [List.countP_cons, List.takeWhile_cons, h, le_of_lt h, ih]
    · have hgt : t < x := lt_of_le_of_ne (not_lt.mp h) (Ne.symm (hne x (by simp)))
      have hzero : xs.countP (fun s => decide (s ≤ t)) = 0 := by
        apply List.countP_eq_zero.mpr
        intro s hsm
        simp only [decide_eq_true_eq]
        exact not_le.mpr (lt_of_lt_of_le hgt (hx s hsm))
      simp [List.countP_cons, List.takeWhile_cons, h, not_le.mpr hgt, hzero]

/-- The mean rate is never negative. -/
theorem meanRate_nonneg (taxas : List (Int × ℚ)) : 0 ≤ meanRate taxas := by
  unfold meanRate
  by_cases h : ((taxas.map Prod.snd).filter (fun v => 0 < v)).isEmpty
  · simp [h]
  · simp only [h, if_false]
    apply div_nonneg
    · apply List.sum_nonneg
      intro x hx
      have := (List.mem_filter.mp hx).2
      simp only [decide_eq_true_eq] at this
      exact le_of_lt this
    · exact Nat.cast_nonneg _

/-- The effective rate for a month is never negative. -/
theorem rateForMonth_nonneg (taxas : List (Int × ℚ)) (m : Int) :
    0 ≤ rateForMonth taxas m := by
  unfold rateForMonth
  by_cases h : 0 < (taxas.lookup m).getD 0
  · simp only [h, if_true]
    exact le_of_lt h
  · simp only [h, if_false]
    exact meanRate_nonneg taxas

/-- The code rate-for-month agrees with the spec-worded rate-for-month. -/
theorem rateForMonth_eq_spec (taxas : List (Int × ℚ)) (m : Int) :
    rateForMonth taxas m = rateForMonthSpec taxas m := by
  cases h : taxas.lookup m with
  | none => simp [rateForMonth, rateForMonthSpec, h]
  | some r => simp [rateForMonth, rateForMonthSpec, h]

/-- Every entry of a dict upsert is an old entry or the upserted pair. -/
theorem mem_dictUpsert (d : List (Int × ℚ)) (k : Int) (v : ℚ) (q : Int × ℚ)
    (h : q ∈ dictUpsert d k v) : q ∈ d ∨ q = (k, v) := by
  unfold dictUpsert at h
  by_cases hc : d.any (fun p => p.1 = k)
  · rw [if_pos hc] at h
    rcases List.mem_map.mp h with ⟨p, hp, hq⟩
    by_cases hk : p.1 = k
    · rw [if_pos hk] at hq
      right; exact hq.symm
    · rw [if_neg hk] at hq
      left; exact hq ▸ hp
  · rw [if_neg hc] at h
    rcases List.mem_append.mp h with h1 | h1
    · left; exact h1
    · right; simpa using h1

/-- Every entry of a dict built by repeated upserts over a pair list is a
starting entry or one of the pairs. -/
theorem mem_foldl_dictUpsert :
    ∀ (l : List (Int × ℚ)) (d : List (Int × ℚ)) (q : Int × ℚ),
      q ∈ l.foldl (fun d p => dictUpsert d p.1 p.2) d → q ∈ d ∨ q ∈ l
  | [], d, q, h => Or.inl (by simpa using h)
  | p :: l, d, q, h => by
    rw [List.foldl_cons] at h
    rcases mem_foldl_dictUpsert l (dictUpsert d p.1 p.2) q h with h1 | h1
    · rcases mem_dictUpsert d p.1 p.2 q h1 with h2 | h2
      · exact Or.inl h2
      · exact Or.inr (by simp [h2])
    · exact Or.inr (by simp [h1])

/-- Every entry of dict(zip(ks, vs)) is one of the zipped pairs. -/
theorem mem_dictOfList (l : List (Int × ℚ)) (q : Int × ℚ)
    (h : q ∈ dictOfList l) : q ∈ l := by
  rcases mem_foldl_dictUpsert l [] q h with h1 | h1
  · exact absurd h1 (List.not_mem_nil q)
  · exact h1

/-- C3: when converting to the reference currency, each records applied rate
is the rate tables entry for its month if present and strictly positive,
otherwise the mean of the strictly positive entries (rateForMonthSpec, whose
meanRate is 0 when no positive entry is present); the converted value is
value_aoa divided by that rate when the rate is positive and undefined
(`none`, never 0) when the rate is 0. -/
theorem C3_usd_conversion (taxas : List (Int × ℚ)) (r : NRec) :
    (convertUSDRec taxas r).applied_rate = some (rateForMonthSpec taxas r.month) ∧
    (convertUSDRec taxas r).value =
      (if 0 < rateForMonthSpec taxas r.month
       then some (r.value_aoa / rateForMonthSpec taxas r.month) else none) := by
  have hspec := rateForMonth_eq_spec taxas r.month
  constructor
  · simp [convertUSDRec, hspec]
  · rcases lt_or_eq_of_le (rateForMonth_nonneg taxas r.month) with hlt | heq
    · rw [← hspec]
      simp [convertUSDRec, ne_of_gt hlt, hlt]
    · rw [← hspec]
      simp [convertUSDRec, ← heq]

/-- C6: conversion with target currency AOA (the local currency) is the
identity on value, for every record set and every rate table. -/
theorem C6_aoa_identity (taxas : List (Int × ℚ)) (rs : List NRec) :
    (convertRecords "AOA" taxas rs).map (fun r => r.value)
      = rs.map (fun r => some r.value_aoa) := by
  simp [convertRecords, convertAOARec]

/-- C10: reading the rate CSV never raises: an unparseable file or missing
month/rate columns (input `none`) yields an empty table silently; with no
manual entries the mean-rate fallback of obter_taxas is then 0 and every
USD-converted value is undefined. -/
theorem C10_rate_fallback :
    ler_taxas_csv none = [] ∧
    (obter_taxas (ler_taxas_csv none) []).2.1 = 0 ∧
    ∀ (rs : List NRec) (r : TRec),
      r ∈ convertRecords "USD" (obter_taxas (ler_taxas_csv none) []).1 rs →
        r.value = none := by
  refine ⟨rfl, rfl, ?_⟩
  intro rs r hr
  have hr2 : r ∈ rs.map (convertUSDRec []) := by
    simpa [convertRecords, obter_taxas, ler_taxas_csv] using hr
  rcases List.mem_map.mp hr2 with ⟨x, _, rfl⟩
  simp [convertUSDRec, rateForMonth, meanRate]

def nrec0 : NRec := ⟨1, "Exportações", "China", some "CHN", "Petróleo bruto", 10⟩

/-- C10 witness: a concrete record converted under the empty rate table has
an undefined value. -/
theorem C10_rate_fallback_witness : (convertUSDRec [] nrec0).value = none :=
  C10_rate_fallback.2.2 [nrec0] (convertUSDRec [] nrec0) (by decide)

/-- C8 counterexample: a rate row that parses to rate 0 is NOT discarded by
ler_taxas_csv, so the resulting table holds a non-positive rate, refuting the
claim that only strictly positive rates remain. -/
theorem C8_counterexample :
    ((1 : Int), (0 : ℚ)) ∈ ler_taxas_csv (some [⟨some 1, some 0⟩]) ∧
    ¬ (0 < (0 : ℚ)) := by
  constructor
  · decide
  · decide

/-- C8 amended: when reading the rate CSV, rows whose month does not parse
into 1..12 or whose rate does not parse are discarded silently; every entry
of the resulting table stems from a row whose month parsed into 1..12 and
whose rate parsed, but the rate itself may be non-positive. -/
theorem C8_rate_rows (rows : List RateRow) (p : Int × ℚ)
    (h : p ∈ ler_taxas_csv (some rows)) :
    1 ≤ p.1 ∧ p.1 ≤ 12 ∧
      ∃ row ∈ rows, row.month = some p.1 ∧ row.rate = some p.2 := by
  unfold ler_taxas_csv at h
  have h2 := mem_dictOfList _ _ h
  rcases List.mem_filterMap.mp h2 with ⟨row, hrow, hmap⟩
  cases hm : row.month with
  | none => rw [hm] at hmap; cases hmap
  | some m =>
    cases hr : row.rate with
    | none => rw [hm, hr] at hmap; cases hmap
    | some r =>
      rw [hm, hr] at hmap
      change (if 1 ≤ m ∧ m ≤ 12 then some ((m, r) : Int × ℚ) else none) = some p at hmap
      by_cases hb : 1 ≤ m ∧ m ≤ 12
      · rw [if_pos hb] at hmap
        have hp : p = (m, r) := by injection hmap with h3; exact h3.symm
        subst hp
        exact ⟨hb.1, hb.2, row, hrow, hm, hr⟩
      · rw [if_neg hb] at hmap
        cases hmap

def rr0 : RateRow := ⟨some 2, some 5⟩

/-- C8 witness: a parsed, in-range rate row yields a table entry traced back
to the row. -/
theorem C8_rate_rows_witness :
    1 ≤ ((2 : Int), (5 : ℚ)).1 ∧ ((2 : Int), (5 : ℚ)).1 ≤ 12 ∧
      ∃ row ∈ [rr0], row.month = some ((2 : Int), (5 : ℚ)).1 ∧
        row.rate = some ((2 : Int), (5 : ℚ)).2 :=
  C8_rate_rows [rr0] ((2 : Int), (5 : ℚ)) (by decide)

/-- C9 counterexample: the code CYP lies in both UE27 and ASIA, so the three
membership sets are not pairwise disjoint in the reference data, and the
classification of CYP changes when the UE and Ásia checks are swapped. -/
theorem C9_counterexample :
    "CYP" ∈ UE27 ∧ "CYP" ∈ ASIA ∧
    classifyRegion (some "CYP") ≠ classifyRegionAsiaFirst (some "CYP") := by
  refine ⟨by decide, by decide, by decide⟩

/-- C9 amended: SADC is disjoint from UE27 and from ASIA, but UE27 and ASIA
overlap exactly in CYP; hence for every code other than CYP the
classification is independent of the UE/Ásia check order, while the fixed
order of the code classifies CYP as UE. -/
theorem C9_bloc_order :
    SADC.filter (fun c => c ∈ UE27) = [] ∧
    SADC.filter (fun c => c ∈ ASIA) = [] ∧
    UE27.filter (fun c => c ∈ ASIA) = ["CYP"] ∧
    classifyRegion (some "CYP") = "UE" ∧
    ∀ x : Option String,
      classifyRegion x = classifyRegionAsiaFirst x ∨ x = some "CYP" := by
  have hfilter : UE27.filter (fun c => c ∈ ASIA) = ["CYP"] := by decide
  refine ⟨by decide, by decide, hfilter, by decide, ?_⟩
  intro x
  by_cases h1 : inSet x SADC = true
  · left; simp [classifyRegion, classifyRegionAsiaFirst, h1]
  · by_cases h2 : inSet x UE27 = true
    · by_cases h3 : inSet x ASIA = true
      · right
        cases x with
        | none => simp [inSet] at h2
        | some c =>
          have hc2 : c ∈ UE27 := by simpa [inSet] using h2
          have hc3 : c ∈ ASIA := by simpa [inSet] using h3
          have : c ∈ UE27.filter (fun c => c ∈ ASIA) :=
            List.mem_filter.mpr ⟨hc2, by simpa using hc3⟩
          rw [hfilter] at this
          simpa using congrArg some (by simpa using this)
      · left; simp [classifyRegion, classifyRegionAsiaFirst, h1, h2, h3]
    · by_cases h3 : inSet x ASIA = true
      · left; simp [classifyRegion, classifyRegionAsiaFirst, h1, h2, h3]
      · left; simp [classifyRegion, classifyRegionAsiaFirst, h1, h2, h3]

def c5row : RawRow := ⟨some 2022, some 1, "Exportações", "China", some "Petróleo", some (-5)⟩

/-- C5 counterexample: a row with a negative monetary input passes
normalization unchanged, so normalized records need not satisfy
value_aoa >= 0 — negative numeric inputs are NOT floored to 0.0. -/
theorem C5_counterexample :
    carregar_dados [c5row]
      = Except.ok [⟨some 2022, some 1, "Exportações", "China", "Petróleo", -5⟩] ∧
    ((⟨some 2022, some 1, "Exportações", "China", "Petróleo", -5⟩ : CoRow).value_aoa < 0) :=
  ⟨rfl, by norm_num⟩

/-- C5 amended: after normalization every records value_aoa is a defined
number, the parse-or-zero of its source cell (unparseable or missing inputs
coerce to 0.0 and never propagate as NaN), but negative numeric inputs pass
through unchanged rather than being floored to 0. -/
theorem C5_value_coercion (rows : List RawRow) (res : List CoRow)
    (h : carregar_dados rows = Except.ok res) :
    ∀ r ∈ res, ∃ raw ∈ rows, r = coerceRow raw ∧ r.value_aoa = raw.value_aoa.getD 0 := by
  unfold carregar_dados at h
  simp only [] at h
  split at h
  · cases h
  · injection h with h
    subst h
    intro r hr
    have h1 : r ∈ (rows.map coerceRow).filter (fun r => r.year = some 2022) :=
      List.mem_of_mem_filter hr
    have h2 : r ∈ rows.map coerceRow := List.mem_of_mem_filter h1
    rcases List.mem_map.mp h2 with ⟨raw, hraw, rfl⟩
    exact ⟨raw, hraw, rfl, rfl⟩

def c5wrow : RawRow := ⟨some 2022, some 3, "Importações", "Portugal", none, none⟩

/-- C5 witness: a row with a missing value cell normalizes to the
parse-or-zero of that cell. -/
theorem C5_value_coercion_witness :
    ∃ raw ∈ [c5wrow], coerceRow c5wrow = coerceRow raw ∧
      (coerceRow c5wrow).value_aoa = raw.value_aoa.getD 0 :=
  C5_value_coercion [c5wrow] [coerceRow c5wrow] rfl (coerceRow c5wrow) (by decide)

def c4nan : TRec := ⟨1, "Exportações", "China", some "CHN", "Petróleo", none, some 0⟩

/-- C4 counterexample: a record whose conversion is undefined (NaN value) IS
silently dropped by the value-range filter (NaN fails both comparisons), so
it does not reach the partner or product aggregates — refuting the claim
that it is kept and still contributes. -/
theorem C4_counterexample :
    applyValueFilter 0 1000 [c4nan] = [] ∧
    by_partner (applyValueFilter 0 1000 [c4nan]) = [] ∧
    by_product (applyValueFilter 0 1000 [c4nan]) = [] :=
  ⟨rfl, rfl, rfl⟩

/-- C4 amended: the conversion step itself drops no record, but the
value-range filter excludes every record with an undefined (NaN) value, so
such records contribute to no aggregate computed from the filtered set. -/
theorem C4_nan_filtered :
    (∀ (lo hi : ℚ) (rs : List TRec) (r : TRec),
      r ∈ applyValueFilter lo hi rs → r.value.isSome = true) ∧
    (∀ (taxas : List (Int × ℚ)) (rs : List NRec),
      (convertRecords "USD" taxas rs).length = rs.length) := by
  constructor
  · intro lo hi rs r hr
    have h2 := (List.mem_filter.mp hr).2
    cases hval : r.value with
    | none => rw [hval] at h2; cases h2
    | some v => rfl
  · intro taxas rs
    simp [convertRecords]

def c4kept : TRec := ⟨1, "Exportações", "China", some "CHN", "Petróleo", some 5, some 1⟩

/-- C4 witness: a record with a defined value inside a filtered set indeed
has a defined value, and conversion preserves the record count. -/
theorem C4_nan_filtered_witness :
    c4kept.value.isSome = true ∧ (convertRecords "USD" [] [nrec0]).length = [nrec0].length :=
  ⟨C4_nan_filtered.1 0 100 [c4kept] c4kept (by decide), C4_nan_filtered.2 [] [nrec0]⟩

def c1bad : List TRec := [⟨1, "Exportações", "Parceiro X", none, "Petróleo", some 5, none⟩]

/-- C1 counterexample: a record whose country resolution failed (iso3 None)
is dropped by the by-(partner, flow) groupby, so its total differs from the
by-(month, flow) total and from totalExport + totalImport. -/
theorem C1_counterexample :
    totalView (monthly_flow c1bad) = 5 ∧
    expTotal c1bad + impTotal c1bad = 5 ∧
    totalView (by_partner c1bad) = 0 ∧
    totalView (by_partner c1bad) ≠ totalView (monthly_flow c1bad) := by
  refine ⟨?_, ?_, ?_, ?_⟩ <;>
    simp +decide [by_partner, monthly_flow, groupSum, sumValues, totalView,
      expTotal, impTotal, c1bad]

/-- C1 amended: for every filtered record set in which every record has a
resolved country code and a flow that is Exportações or Importações, the
total of the by-(month, flow) view, the total of the by-(partner, flow)
view and totalExport + totalImport coincide. -/
theorem C1_total_conservation (rs : List TRec)
    (hiso : ∀ r ∈ rs, r.iso3.isSome = true)
    (hflow : ∀ r ∈ rs, r.flow = "Exportações" ∨ r.flow = "Importações") :
    totalView (monthly_flow rs) = expTotal rs + impTotal rs ∧
    totalView (by_partner rs) = expTotal rs + impTotal rs := by
  have hsum : expTotal rs + impTotal rs = sumValues rs := by
    have hsplit := sum_filter_not (fun r : TRec => r.value.getD 0)
      (fun r => decide (r.flow = "Exportações")) rs
    have hcongr : rs.filter (fun r => !(decide (r.flow = "Exportações")))
        = rs.filter (fun r => r.flow = "Importações") := by
      apply List.filter_congr
      intro r hr
      rcases hflow r hr with h | h
      · simp [h]
      · simp [h]
    unfold expTotal impTotal sumValues
    rw [← hcongr]
    exact hsplit
  have hfil : rs.filter (fun r => r.iso3.isSome) = rs :=
    List.filter_eq_self.mpr hiso
  constructor
  · rw [hsum]
    exact totalView_groupSum _ rs
  · rw [hsum]
    unfold by_partner
    rw [hfil]
    exact totalView_groupSum _ rs

def c1good : List TRec :=
  [⟨1, "Exportações", "China", some "CHN", "Petróleo", some 7, none⟩,
   ⟨2, "Importações", "Portugal", some "PRT", "Máquinas", some 3, none⟩]

/-- C1 witness: on a concrete two-record set with resolved codes and valid
flows the three totals agree. -/
theorem C1_total_conservation_witness :
    totalView (monthly_flow c1good) = expTotal c1good + impTotal c1good ∧
    totalView (by_partner c1good) = expTotal c1good + impTotal c1good :=
  C1_total_conservation c1good (by decide) (by decide)

/-- No concentration message ever stems from the leading-partner insight. -/
theorem concentration_not_mem_topPartner (rs : List TRec) (t : ℚ) (n : Nat) :
    Insight.concentration n ∉ insightTopPartner rs t := by
  unfold insightTopPartner
  split <;> simp

/-- No concentration message ever stems from the leading-product insight. -/
theorem concentration_not_mem_topProduct (rs : List TRec) (t : ℚ) (n : Nat) :
    Insight.concentration n ∉ insightTopProduct rs t := by
  unfold insightTopProduct
  split <;> simp

/-- No concentration message ever stems from the best/worst-month insight. -/
theorem concentration_not_mem_bestWorst (rs : List TRec) (n : Nat) :
    Insight.concentration n ∉ insightBestWorst rs := by
  unfold insightBestWorst
  split <;> simp

/-- No concentration message ever stems from the balance insight. -/
theorem concentration_not_mem_balance (rs : List TRec) (n : Nat) :
    Insight.concentration n ∉ insightBalance rs := by
  unfold insightBalance
  split <;> simp

def c2recs : List TRec :=
  [⟨1, "Exportações", "A", some "AAA", "P", some 50, none⟩,
   ⟨1, "Exportações", "B", some "BBB", "P", some 40, none⟩,
   ⟨1, "Exportações", "C", some "CCC", "P", some 10, none⟩]

/-- The cumulative partner shares of the concrete three-partner set. -/
theorem partnerShares_c2recs : partnerShares c2recs = [50, 90, 100] := by
  simp +decide [partnerShares, partnerSumsSorted, sortDescBy, insertDescBy, cumsum,
    cumsumFrom, groupSum, sumValues, c2recs]
  norm_num

/-- C2 counterexample: with partner values 50, 40, 10 the minimum number of
top partners whose cumulative share reaches 80 percent is 2, but the emitted
concentration insight reports 1 (the count of partners with cumulative share
at most 80 percent), and no insight reporting 2 is emitted. -/
theorem C2_counterexample :
    n80 c2recs = 1 ∧ specMinPartners c2recs = 2 ∧
    Insight.concentration (n80 c2recs) ∈ gerar_insights c2recs ∧
    Insight.concentration (specMinPartners c2recs) ∉ gerar_insights c2recs := by
  have hshares := partnerShares_c2recs
  have hn : n80 c2recs = 1 := by
    rw [n80, hshares]
    norm_num [List.countP_cons]
  have hm : specMinPartners c2recs = 2 := by
    rw [specMinPartners, hshares]
    norm_num [List.takeWhile_cons]
  have hne : c2recs ≠ [] := by simp [c2recs]
  have hpos : 0 < sumValues c2recs := by norm_num [sumValues, c2recs]
  refine ⟨hn, hm, ?_, ?_⟩
  · unfold gerar_insights
    rw [if_neg hne, if_neg (not_le.mpr hpos)]
    refine List.mem_append.mpr (Or.inr ?_)
    simp [insightConcentration, hn]
  · intro hmem
    unfold gerar_insights at hmem
    rw [if_neg hne, if_neg (not_le.mpr hpos)] at hmem
    rcases List.mem_append.mp hmem with hmem | hmem
    · rcases List.mem_append.mp hmem with hmem | hmem
      · rcases List.mem_append.mp hmem with hmem | hmem
        · rcases List.mem_append.mp hmem with hmem | hmem
          · exact concentration_not_mem_topPartner _ _ _ hmem
          · exact concentration_not_mem_topProduct _ _ _ hmem
        · exact concentration_not_mem_bestWorst _ _ hmem
      · exact concentration_not_mem_balance _ _ hmem
    · rw [hm] at hmem
      simp [insightConcentration, hn] at hmem

/-- C2 amended: the concentration insight reports the number of top partners
whose cumulative share is at most 80 percent of the total, emitted only when
that number is at least 1; over nonnegative values with positive total and no
cumulative share exactly equal to 80, this count is one fewer than the
minimum number of top partners whose cumulative share first reaches or
exceeds 80 percent. -/
theorem C2_concentration (rs : List TRec)
    (hnn : ∀ r ∈ rs, 0 ≤ r.value.getD 0)
    (hpos : 0 < sumValues rs)
    (hno : ∀ s ∈ partnerShares rs, s ≠ 80) :
    n80 rs + 1 = specMinPartners rs ∧
    (1 ≤ n80 rs → Insight.concentration (n80 rs) ∈ gerar_insights rs) := by
  have hsums : ∀ x ∈ partnerSumsSorted rs, 0 ≤ x := by
    intro x hx
    unfold partnerSumsSorted at hx
    rw [mem_sortDescBy] at hx
    rcases List.mem_map.mp hx with ⟨p, hp, rfl⟩
    rcases List.mem_map.mp hp with ⟨k, _, rfl⟩
    apply sumValues_nonneg
    intro r hr
    exact hnn r (List.mem_of_mem_filter hr)
  have hsorted : (partnerShares rs).Sorted (· ≤ ·) := by
    unfold partnerShares cumsum
    have hc := (cumsumFrom_sorted_le (partnerSumsSorted rs) hsums 0).1
    refine List.Pairwise.map _ ?_ hc
    intro a b hab
    have h1 : a / sumValues rs ≤ b / sumValues rs :=
      (div_le_div_iff_of_pos_right hpos).mpr hab
    nlinarith
  constructor
  · unfold n80 specMinPartners
    rw [countP_le_of_sorted 80 (partnerShares rs) hsorted hno]
  · intro h1
    have hne : rs ≠ [] := by
      intro h
      rw [h] at hpos
      simp [sumValues] at hpos
    unfold gerar_insights
    rw [if_neg hne, if_neg (not_le.mpr hpos)]
    refine List.mem_append.mpr (Or.inr ?_)
    simp [insightConcentration, h1]

/-- C2 witness: the amended statement at the concrete three-partner set. -/
theorem C2_concentration_witness :
    n80 c2recs + 1 = specMinPartners c2recs ∧
    (1 ≤ n80 c2recs → Insight.concentration (n80 c2recs) ∈ gerar_insights c2recs) :=
  C2_concentration c2recs (by decide)
    (by norm_num [sumValues, c2recs])
    (by rw [partnerShares_c2recs]; norm_num)

def c7zero : List TRec := [⟨1, "Exportações", "China", some "CHN", "Petróleo", some 0, none⟩]

/-- C7 counterexample: a nonempty record set of total value 0 still produces
a nonempty by-(month, flow) aggregate view (with a zero-valued group), so the
claim that all aggregate views are empty whenever the total is 0 fails. -/
theorem C7_counterexample : sumValues c7zero = 0 ∧ monthly_flow c7zero ≠ [] := by
  constructor
  · norm_num [sumValues, c7zero]
  · simp +decide [monthly_flow, groupSum, c7zero]

/-- C7 amended: on a filtered set that is empty or (being value-filtered, so
nonnegative) has total value 0, the insight engine returns exactly the
sentinel message and coverage and month-over-month change are undefined; all
five aggregate views are empty when the set is empty (a nonempty zero-total
set instead yields zero-valued groups). -/
theorem C7_degenerate (rs : List TRec) (msel : List Int)
    (hnn : ∀ r ∈ rs, 0 ≤ r.value.getD 0)
    (h : rs = [] ∨ sumValues rs = 0) :
    gerar_insights rs = [Insight.sentinel] ∧ cobertura rs = none ∧
    varMM rs msel = none ∧
    (rs = [] → monthly_flow rs = [] ∧ by_partner rs = [] ∧ by_product rs = [] ∧
      by_region rs = [] ∧ monthly_region rs = []) := by
  have htot : sumValues rs = 0 := by
    rcases h with h | h
    · rw [h]; rfl
    · exact h
  have himp : impTotal rs = 0 := by
    have h1 : impTotal rs ≤ sumValues rs := sumValues_filter_le _ rs hnn
    have h2 : 0 ≤ impTotal rs :=
      sumValues_nonneg _ (fun r hr => hnn r (List.mem_of_mem_filter hr))
    linarith
  refine ⟨?_, ?_, ?_, ?_⟩
  · by_cases hrs : rs = []
    · rw [hrs]; rfl
    · unfold gerar_insights
      rw [if_neg hrs, if_pos (le_of_eq htot)]
  · simp [cobertura, himp]
  · unfold varMM
    by_cases hm : 1 < mesRef rs msel
    · have hp : sumValues (rs.filter (fun r => r.month = mesRef rs msel - 1)) = 0 := by
        have h1 := sumValues_filter_le
          (fun r => decide (r.month = mesRef rs msel - 1)) rs hnn
        have h2 := sumValues_nonneg
          (rs.filter (fun r => decide (r.month = mesRef rs msel - 1)))
          (fun r hr => hnn r (List.mem_of_mem_filter hr))
        linarith
      simp [hm, hp]
    · simp [hm]
  · intro hrs
    subst hrs
    exact ⟨rfl, rfl, rfl, rfl, rfl⟩

/-- C7 witness: the amended statement at the empty record set. -/
theorem C7_degenerate_witness :
    gerar_insights [] = [Insight.sentinel] ∧ cobertura [] = none ∧
    varMM [] [] = none ∧
    (([] : List TRec) = [] → monthly_flow [] = [] ∧ by_partner [] = [] ∧
      by_product [] = [] ∧ by_region [] = [] ∧ monthly_region [] = []) :=
  C7_degenerate [] [] (by simp) (Or.inl rfl)

end TradeApp
